import Mathlib

/-!
Verification of the esgf_metrics log-to-metrics aggregation pipeline.

The Python source (esgf_metrics/parse.py, esgf_metrics/utils.py,
esgf_metrics/facets.py, and the usage_plotter variant) is shallowly embedded
here.  Python strings are modelled as lists of characters (`PyStr`), Python
exceptions as an `Except PyErr` result, pandas DataFrame column bookkeeping as
lists of column names, and the arithmetic on byte counts as exact rationals.
-/

/-- Python strings are modelled as lists of characters so that slicing,
splitting and substring containment can be defined by structural recursion. -/
abbrev PyStr := List Char

/-- Python exceptions raised by the embedded code.  `valueError` covers both
the node-validation `ValueError` in `LogParser._parse_log_files` and the
`float()` conversion error; `indexError` is raised by out-of-range list
subscripts; `keyError` by missing dict/DataFrame keys; `attributeError` by
attribute access on a pandas row that lacks the named column. -/
inductive PyErr where
  | indexError
  | valueError
  | keyError
  | attributeError
  deriving DecidableEq, Repr

/-- Containment of `pat` in `s` as a substring, the semantics of the Python
expression `pat in s` on strings: some suffix of `s` starts with `pat`. -/
def containsSub (pat s : PyStr) : Bool :=
  s.tails.any (fun t => pat.isPrefixOf t)

/-- Helper for `pySplit`: splits on the separator `c0 :: sep`, scanning left
to right and consuming non-overlapping occurrences, exactly as Python
`str.split(sep)` does for a non-empty separator.  The recursion is driven by
a fuel argument so that the definition is structurally recursive and reduces
inside the kernel; callers pass the length of the string as fuel, which is
always sufficient because every step consumes at least one character, and
the fuel-exhausted branch (unreachable on such calls) returns the unsplit
remainder. -/
def pySplitFuel (c0 : Char) (sep : PyStr) : Nat → PyStr → List PyStr
  | _, [] => [[]]
  | 0, s => [s]
  | fuel + 1, c :: rest =>
    if (c0 :: sep).isPrefixOf (c :: rest) then
      [] :: pySplitFuel c0 sep fuel (rest.drop sep.length)
    else
      match pySplitFuel c0 sep fuel rest with
      | [] => [[c]]
      | h :: t => (c :: h) :: t

/-- Python `s.split(sep)` for a separator string; Python raises on an empty
separator, which never occurs in the embedded code, so the empty-separator
case is mapped to the identity split. -/
def pySplit (sep s : PyStr) : List PyStr :=
  match sep with
  | [] => [s]
  | c0 :: sep0 => pySplitFuel c0 sep0 s.length s

/-- Python `s.replace(pat, rep)`: equivalent to splitting on `pat` and
re-joining the pieces with `rep`. -/
def pyReplace (pat rep s : PyStr) : PyStr :=
  List.intercalate rep (pySplit pat s)

/-- Helper for `pyWords` carrying the (reversed) current word. -/
def pyWordsAux (cur : PyStr) : PyStr → List PyStr
  | [] => if cur.isEmpty then [] else [cur.reverse]
  | c :: rest =>
    if c.isWhitespace then
      if cur.isEmpty then pyWordsAux [] rest
      else cur.reverse :: pyWordsAux [] rest
    else pyWordsAux (c :: cur) rest

/-- Python `s.split()` with no argument: splits on runs of whitespace and
never produces empty fields. -/
def pyWords (s : PyStr) : List PyStr :=
  pyWordsAux [] s

/-- Subscript `l[i]` of a Python list: `IndexError` when out of range
(negative indices are not used by the embedded code). -/
def att (l : List α) (i : Nat) : Except PyErr α :=
  match l.get? i with
  | some a => .ok a
  | none => .error .indexError

/-- Value of a decimal-digit string, the exact value that Python
`float(s)` yields on the all-digit byte-count fields of an access log. -/
def digitsToNat (s : PyStr) : Nat :=
  s.foldl (fun acc c => 10 * acc + (c.toNat - 48)) 0

/-- Python `float(s)` restricted to the grammar that the byte-count field of
an access log can take: a non-empty string of decimal digits converts to its
numeric value, and anything else raises `ValueError`.  The full Python float
grammar (signs, decimal points, exponents) never reaches this call site: the
caller converts only strings that contain no hyphen, and the Apache `%b`
field is either all digits or the placeholder. -/
def pyFloat (s : PyStr) : Except PyErr ℚ :=
  if s ≠ [] ∧ s.all (fun c => c.isDigit) then .ok (digitsToNat s)
  else .error .valueError

/-- Embedding of `esgf_metrics.utils.bytes_to`: divides the converted float
by `bsize ** map_sizes[to]`, where `map_sizes` is the dict
`kb: 1, mb: 2, gb: 3, t: 4` (note the source dict has key `t`, so the unit
string `tb` allowed by the type annotation would raise `KeyError`). -/
def map_sizes (unit : String) : Except PyErr Nat :=
  match unit with
  | "kb" => .ok 1
  | "mb" => .ok 2
  | "gb" => .ok 3
  | "t" => .ok 4
  | _ => .error .keyError

/-- Embedding of `esgf_metrics.utils.bytes_to` with `bsize = 1024`. -/
def bytes_to (bytes : PyStr) (unit : String) : Except PyErr ℚ := do
  let pow ← map_sizes unit
  let bytes_float ← pyFloat bytes
  return bytes_float / ((1024 : ℚ) ^ pow)

/-- Embedding of `E3SM_CY_TO_FY_MAP` from esgf_metrics/parse.py: the fixed
dict from calendar month to E3SM fiscal month; subscripting the dict with a
key outside 1..12 raises `KeyError`, modelled by `none`. -/
def E3SM_CY_TO_FY_MAP (m : Nat) : Option Nat :=
  match m with
  | 7 => some 1
  | 8 => some 2
  | 9 => some 3
  | 10 => some 4
  | 11 => some 5
  | 12 => some 6
  | 1 => some 7
  | 2 => some 8
  | 3 => some 9
  | 4 => some 10
  | 5 => some 11
  | 6 => some 12
  | _ => none

/-- Fiscal-year label produced by `_add_fiscal_date_cols`: the calendar
year-month period is converted with `asfreq("Q-JUN")` and formatted with
`strftime("%F")`, which for a fiscal year ending in June labels the period
with the calendar year in which the fiscal year ends: months July to
December of year `y` and January to June of year `y + 1` are both labelled
`y + 1`. -/
def fiscalYearQJun (y m : Nat) : Nat :=
  if 7 ≤ m then y + 1 else y

/-- Claim C1: the fiscal calendar resolver maps calendar months 7..12 to
fiscal months 1..6 and calendar months 1..6 to fiscal months 7..12, a
bijection onto 1..12, and the fiscal year label of calendar (year, month) is
`y + 1` for months 7..12 and `y` for months 1..6; in particular
`fiscal_year(y, 6) = y` and `fiscal_year(y, 7) = y + 1`. -/
theorem fiscal_calendar_resolver_ok :
    (∀ m, 7 ≤ m → m ≤ 12 → E3SM_CY_TO_FY_MAP m = some (m - 6)) ∧
    (∀ m, 1 ≤ m → m ≤ 6 → E3SM_CY_TO_FY_MAP m = some (m + 6)) ∧
    (∀ m, 1 ≤ m → m ≤ 12 → ∃ k, E3SM_CY_TO_FY_MAP m = some k ∧ 1 ≤ k ∧ k ≤ 12) ∧
    (∀ m m2, 1 ≤ m → m ≤ 12 → 1 ≤ m2 → m2 ≤ 12 →
      E3SM_CY_TO_FY_MAP m = E3SM_CY_TO_FY_MAP m2 → m = m2) ∧
    (∀ k, 1 ≤ k → k ≤ 12 → ∃ m, 1 ≤ m ∧ m ≤ 12 ∧ E3SM_CY_TO_FY_MAP m = some k) ∧
    (∀ y m, 7 ≤ m → m ≤ 12 → fiscalYearQJun y m = y + 1) ∧
    (∀ y m, 1 ≤ m → m ≤ 6 → fiscalYearQJun y m = y) ∧
    (∀ y, fiscalYearQJun y 6 = y ∧ fiscalYearQJun y 7 = y + 1) := by
  refine ⟨?_, ?_, ?_, ?_, ?_, ?_, ?_, ?_⟩
  · intro m h1 h2; interval_cases m <;> rfl
  · intro m h1 h2; interval_cases m <;> rfl
  · intro m h1 h2; interval_cases m <;> exact ⟨_, rfl, by omega, by omega⟩
  · intro m m2 h1 h2 h3 h4 h
    interval_cases m <;> interval_cases m2 <;> simp_all [E3SM_CY_TO_FY_MAP]
  · intro k h1 h2
    interval_cases k
    · exact ⟨7, by omega, by omega, rfl⟩
    · exact ⟨8, by omega, by omega, rfl⟩
    · exact ⟨9, by omega, by omega, rfl⟩
    · exact ⟨10, by omega, by omega, rfl⟩
    · exact ⟨11, by omega, by omega, rfl⟩
    · exact ⟨12, by omega, by omega, rfl⟩
    · exact ⟨1, by omega, by omega, rfl⟩
    · exact ⟨2, by omega, by omega, rfl⟩
    · exact ⟨3, by omega, by omega, rfl⟩
    · exact ⟨4, by omega, by omega, rfl⟩
    · exact ⟨5, by omega, by omega, rfl⟩
    · exact ⟨6, by omega, by omega, rfl⟩
  · intro y m h1 h2; simp [fiscalYearQJun, h1]
  · intro y m h1 h2; simp [fiscalYearQJun]; omega
  · intro y; constructor
    · simp [fiscalYearQJun]
    · simp [fiscalYearQJun]

/-- Witness for C1: the fiscal calendar resolver evaluated at concrete
months, discharging every hypothesis at month 7 and month 6. -/
theorem fiscal_calendar_resolver_ok_witness :
    E3SM_CY_TO_FY_MAP 7 = some 1 ∧ E3SM_CY_TO_FY_MAP 6 = some 12 ∧
    fiscalYearQJun 2019 7 = 2020 ∧ fiscalYearQJun 2019 6 = 2019 := by
  refine ⟨?_, ?_, ?_, ?_⟩
  · exact fiscal_calendar_resolver_ok.1 7 (by decide) (by decide)
  · exact fiscal_calendar_resolver_ok.2.1 6 (by decide) (by decide)
  · exact fiscal_calendar_resolver_ok.2.2.2.2.2.1 2019 7 (by decide) (by decide)
  · exact fiscal_calendar_resolver_ok.2.2.2.2.2.2.1 2019 6 (by decide) (by decide)

theorem containsSub_iff (pat s : PyStr) : containsSub pat s = true ↔ pat <:+: s := by
  simp only [containsSub, List.any_eq_true, List.mem_tails]
  constructor
  · rintro ⟨t, hts, hpre⟩
    have hp : pat <+: t := by
      simpa using hpre
    exact hp.isInfix.trans hts.isInfix
  · intro h
    rcases h with ⟨l, r, rfl⟩
    refine ⟨pat ++ r, ⟨l, by simp⟩, ?_⟩
    simp

theorem pySplitFuel_no_occurrence (c0 : Char) (sep : PyStr) (fuel : Nat) (s : PyStr)
    (h : ¬ ((c0 :: sep) <:+: s)) : pySplitFuel c0 sep fuel s = [s] := by
  induction fuel generalizing s with
  | zero => cases s <;> rfl
  | succ fuel ih =>
    cases s with
    | nil => rfl
    | cons c rest =>
      have hpre : (c0 :: sep).isPrefixOf (c :: rest) = false := by
        by_contra hc
        have hb : (c0 :: sep).isPrefixOf (c :: rest) = true := by
          revert hc; cases (c0 :: sep).isPrefixOf (c :: rest) <;> simp
        have hp : (c0 :: sep) <+: (c :: rest) := by
          simpa [ List.isPrefixOf_iff_prefix] using hb
        exact h hp.isInfix
      have hrest : ¬ ((c0 :: sep) <:+: rest) := by
        intro hc
        exact h (hc.trans (List.suffix_cons c rest).isInfix)
      rw [pySplitFuel, hpre]
      simp only [Bool.false_eq_true, if_false]
      rw [ih rest hrest]

theorem pySplit_no_occurrence (c0 : Char) (sep : PyStr) (s : PyStr)
    (h : ¬ ((c0 :: sep) <:+: s)) : pySplit (c0 :: sep) s = [s] :=
  pySplitFuel_no_occurrence c0 sep s.length s h

/-- Embedding of the retention condition of `LogParser._filter_log_lines`
(esgf_metrics/parse.py): a raw line is yielded exactly when it contains the
substring E3SM, contains none of the denylist substrings, and contains the
substring of a space-delimited 200 or 206. -/
def filterLineKeep (line : PyStr) : Bool :=
  containsSub ("E3SM".toList) line
    && !(containsSub ("xml".toList) line)
    && !(containsSub ("ico".toList) line)
    && !(containsSub ("cmip6_variables".toList) line)
    && !(containsSub ("html".toList) line)
    && !(containsSub ("catalog".toList) line)
    && !(containsSub ("aggregation".toList) line)
    && (containsSub (" 200 ".toList) line || containsSub (" 206 ".toList) line)

/-- Denylist of substrings indicating non-download traffic, as listed in the
spec and in `_filter_log_lines`. -/
def denyList : List PyStr :=
  ["xml".toList, "ico".toList, "cmip6_variables".toList, "html".toList,
   "catalog".toList, "aggregation".toList]

/-- Status-code token of a line: whitespace field 8, the field the record
parser later stores as `status_code`. -/
def statusToken (line : PyStr) : Option PyStr :=
  (pyWords line).get? 8

/-- Modelled from the claim wording: a line is retained iff it references the
data marker, contains no denylist substring, and its status code token is
exactly 200 or 206. -/
def retainedSpecC4 (line : PyStr) : Prop :=
  ("E3SM".toList <:+: line) ∧ (∀ d ∈ denyList, ¬ (d <:+: line)) ∧
    (statusToken line = some ("200".toList) ∨ statusToken line = some ("206".toList))

/-- Concrete access-log line with status token 404 and a byte-count field of
200: retained by the filter even though its status code is not 200/206. -/
def lineStatus404 : PyStr :=
  "9.8.7.6 - - [15/Jul/2019:03:18:49 -0700] qGET /E3SM/f.nc Hq 404 200 r u".toList

/-- Counterexample for claim C4: the filter keeps a line whose status-code
token is 404, because the code only tests for the substrings of
space-delimited 200 or 206 anywhere in the line (here the byte-count field),
so retention is not equivalent to the status token being 200 or 206. -/
theorem line_filter_counterexample :
    filterLineKeep lineStatus404 = true ∧
      statusToken lineStatus404 = some ("404".toList) ∧
      ¬ retainedSpecC4 lineStatus404 := by
  refine ⟨by decide, by decide, ?_⟩
  intro h
  rcases h with ⟨-, -, h3⟩
  rcases h3 with h3 | h3 <;> revert h3 <;> decide

/-- Claim C4, amended: a line is retained iff it contains the E3SM data
marker, contains none of the fixed denylist substrings, and contains the
space-delimited substring 200 or 206 anywhere in the line (an approximation
of the status-code test that can also match other numeric fields such as the
byte count). -/
theorem line_filter_amended (line : PyStr) :
    filterLineKeep line = true ↔
      ("E3SM".toList <:+: line) ∧ (∀ d ∈ denyList, ¬ (d <:+: line)) ∧
        ((" 200 ".toList <:+: line) ∨ (" 206 ".toList <:+: line)) := by
  simp only [filterLineKeep, Bool.and_eq_true, Bool.or_eq_true, Bool.not_eq_true',
    containsSub_iff, denyList]
  constructor
  · rintro ⟨⟨⟨⟨⟨⟨⟨h1, h2⟩, h3⟩, h4⟩, h5⟩, h6⟩, h7⟩, h8⟩
    refine ⟨h1, ?_, ?_⟩
    · intro d hd
      simp only [List.mem_cons, List.not_mem_nil, or_false] at hd
      rcases hd with rfl | rfl | rfl | rfl | rfl | rfl <;>
        simp only [← containsSub_iff] <;> simp_all
    · rcases h8 with h8 | h8
      · exact Or.inl (by simpa [containsSub_iff] using h8)
      · exact Or.inr (by simpa [containsSub_iff] using h8)
  · rintro ⟨h1, h2, h3⟩
    have d1 := h2 ("xml".toList) (by simp)
    have d2 := h2 ("ico".toList) (by simp)
    have d3 := h2 ("cmip6_variables".toList) (by simp)
    have d4 := h2 ("html".toList) (by simp)
    have d5 := h2 ("catalog".toList) (by simp)
    have d6 := h2 ("aggregation".toList) (by simp)
    refine ⟨⟨⟨⟨⟨⟨⟨h1, ?_⟩, ?_⟩, ?_⟩, ?_⟩, ?_⟩, ?_⟩, ?_⟩
    · simp only [← containsSub_iff] at d1; simpa using d1
    · simp only [← containsSub_iff] at d2; simpa using d2
    · simp only [← containsSub_iff] at d3; simpa using d3
    · simp only [← containsSub_iff] at d4; simpa using d4
    · simp only [← containsSub_iff] at d5; simpa using d5
    · simp only [← containsSub_iff] at d6; simpa using d6
    · rcases h3 with h3 | h3
      · exact Or.inl (by simpa [containsSub_iff] using h3)
      · exact Or.inr (by simpa [containsSub_iff] using h3)

/-- Conversion of a list of string literals into the character-list model. -/
def facetValues (vs : List String) : List PyStr :=
  vs.map String.toList

/-- Realm facet values shared by both projects (esgf_metrics/facets.py). -/
def realmOptions : List PyStr :=
  facetValues ["ocean", "atmos", "land", "sea-ice"]

/-- Data-type facet values shared by both projects. -/
def dataTypeOptions : List PyStr :=
  facetValues ["time-series", "climo", "model-output", "mapping", "restart"]

/-- Time-frequency facet values of the E3SM Native project. -/
def timeFrequencyOptions : List PyStr :=
  facetValues ["3hr", "3hr_snap", "5day_snap", "6hr", "6hr_ave", "6hr_snap",
    "day", "day_cosp", "fixed", "mon", "monClim"]

/-- Activity facet values of the E3SM CMIP6 project. -/
def activityOptions : List PyStr :=
  facetValues ["C4MIP", "CMIP", "DAMIP", "ScenarioMIP"]

/-- Variable-identifier facet values of the E3SM CMIP6 project. -/
def variableIdOptions : List PyStr :=
  facetValues ["abs550aer", "albisccp", "areacella", "areacello", "cLitter",
    "cProduct", "cSoilFast", "cSoilMedium", "cSoilSlow", "cVeg", "cl",
    "clcalipso", "clhcalipso", "cli", "clisccp", "clivi", "cllcalipso",
    "clmcalipso", "clt", "cltcalipso", "cltisccp", "clw", "clwvi", "evspsbl",
    "evspsblsoi", "evspsblveg", "fFire", "fHarvest", "fsitherm", "gpp",
    "hfds", "hfls", "hfsifrazil", "hfss", "hur", "hus", "huss", "lai",
    "masscello", "masso", "mlotst", "mrfso", "mrro", "mrros", "mrso",
    "mrsos", "msftmz", "nbp", "o3", "od550aer", "orog", "pbo", "pctisccp",
    "pfull", "phalf", "pr", "prc", "prsn", "prveg", "prw", "ps", "psl",
    "pso", "ra", "rh", "rlds", "rldscs", "rlus", "rlut", "rlutcs", "rsds",
    "rsdscs", "rsdt", "rsus", "rsuscs", "rsut", "rsutcs", "rtmt", "sfcWind",
    "sfdsi", "sftlf", "siconc", "simass", "sisnmass", "sisnthick",
    "sitemptop", "sithick", "sitimefrac", "siu", "siv", "so", "sob", "soga",
    "sos", "sosga", "ta", "tas", "tauu", "tauuo", "tauv", "tauvo", "thetao",
    "thetaoga", "thkcello", "tob", "tos", "tosga", "tran", "ts", "tsl",
    "ua", "uo", "va", "vo", "volcello", "volo", "wap", "wfo", "wo", "zg",
    "zhalfo", "zos"]

/-- Embedding of `AVAILABLE_FACETS` from esgf_metrics/facets.py: each
project is mapped to its ordered facet dimensions and their declared value
sets, in Python dict insertion order. -/
def AVAILABLE_FACETS : List (String × List (String × List PyStr)) :=
  [("E3SM Native",
    [("realm", realmOptions),
     ("data_type", dataTypeOptions),
     ("time_frequency", timeFrequencyOptions)]),
   ("E3SM CMIP6",
    [("realm", realmOptions),
     ("data_type", dataTypeOptions),
     ("activity", activityOptions),
     ("variable_id", variableIdOptions)])]

/-- Value stored in a facet field of the record dict: the Python code is
dynamically typed, and the branch `facet_value = option` in
`_extract_facets_from_dataset_id` would store the whole list of declared
values (the loop iterates dict items, so `option` is a `list`), while a
correct extraction stores a single string; the sum distinguishes the two. -/
abbrev PyVal := Sum PyStr (List PyStr)

/-- Facet fields of a parsed request record, all initialised to `None` in
`_parse_log_line`. -/
structure Facets where
  realm : Option PyVal
  data_type : Option PyVal
  variable_id : Option PyVal
  time_frequency : Option PyVal
  activity : Option PyVal
  deriving DecidableEq, Repr

/-- Facet fields as initialised in the record literal of `_parse_log_line`. -/
def noFacets : Facets :=
  ⟨none, none, none, none, none⟩

/-- Assignment `log_line[facet] = v` for a facet-name string. -/
def setFacet (f : Facets) (name : String) (v : Option PyVal) : Facets :=
  match name with
  | "realm" => ⟨v, f.data_type, f.variable_id, f.time_frequency, f.activity⟩
  | "data_type" => ⟨f.realm, v, f.variable_id, f.time_frequency, f.activity⟩
  | "variable_id" => ⟨f.realm, f.data_type, v, f.time_frequency, f.activity⟩
  | "time_frequency" => ⟨f.realm, f.data_type, f.variable_id, v, f.activity⟩
  | "activity" => ⟨f.realm, f.data_type, f.variable_id, f.time_frequency, v⟩
  | _ => f

/-- Python equality test between a string segment and a list of strings, as
evaluated by `option in dataset_id` inside
`_extract_facets_from_dataset_id`: the elements of `dataset_id` are `str`
and `option` is a `list`, and in Python a `str` never equals a `list`, so
the test is identically false. -/
def pyStrEqList (seg : PyStr) (opts : List PyStr) : Bool :=
  false

/-- Final value of the loop variable `facet_value` after the inner loop of
`_extract_facets_from_dataset_id`: the variable is reset to `None` at the
start of every iteration and conditionally set to `option`, so after the
loop it holds the value computed by the last iteration, the one for `opts`,
namely `option` itself (a list) when `option in dataset_id` and `None`
otherwise. -/
def innerLoopFinal (segs : List PyStr) (opts : List PyStr) : Option PyVal :=
  if segs.any (fun s => pyStrEqList s opts) then some (Sum.inr opts) else none

/-- Embedding of `LogParser._extract_facets_from_dataset_id`
(esgf_metrics/parse.py): the dataset id is split on dots; then for each
project of `AVAILABLE_FACETS` the inner loop runs over the project facets,
and the single assignment `log_line[facet] = facet_value` sits outside the
inner loop, so only the last facet of each project is assigned, with the
value left by the last inner iteration. -/
def extractFacetsFromDatasetId (dataset_id : PyStr) (f : Facets) : Facets :=
  let segs := pySplit (".".toList) dataset_id
  AVAILABLE_FACETS.foldl
    (fun acc pf =>
      match pf.2.getLast? with
      | none => acc
      | some fo => setFacet acc fo.1 (innerLoopFinal segs fo.2))
    f

/-- Embedding of the facet loop of `parse_log_path`
(usage_plotter/parse.py): scans the declared options in catalog order and
keeps the last option that occurs among the dot-separated segments. -/
def upMatchFacet (opts : List PyStr) (segs : List PyStr) : Option PyStr :=
  opts.foldl (fun acc o => if o ∈ segs then some o else acc) none

/-- Modelled from the claim wording for C3: scan the segment list and keep
the last segment that matches any declared value for the dimension. -/
def lastMatchingSegment (opts : List PyStr) (segs : List PyStr) : Option PyStr :=
  segs.foldl (fun acc s => if s ∈ opts then some s else acc) none

/-- Ingest-root anchor substring used by `_extract_ids_from_dataset_path`. -/
def userPubAnchor : PyStr :=
  "/user_pub_work/".toList

/-- Project-B marker substring used by `_parse_log_line`. -/
def e3smProjectMarker : PyStr :=
  "/E3SM-Project".toList

/-- Embedding of `LogParser._extract_ids_from_dataset_path`: take the part
of the dataset path after the last occurrence of the ingest-root anchor
(the whole path when the anchor is absent), split it on slashes, and return
the dot-join of all but the last segment together with the last segment. -/
def extractIdsFromDatasetPath (dataset_path : PyStr) : PyStr × PyStr :=
  (List.intercalate (".".toList)
    (pySplit ("/".toList) ((pySplit userPubAnchor dataset_path).getLastD [])).dropLast,
   (pySplit ("/".toList) ((pySplit userPubAnchor dataset_path).getLastD [])).getLastD [])

/-- Derived megabytes of a byte-count field, per the record literal of
`_parse_log_line`: zero when the field contains a hyphen, otherwise
`bytes_to(field, "mb")`. -/
def megabytesOfField (b : PyStr) : Except PyErr ℚ :=
  if containsSub ("-".toList) b then .ok 0 else bytes_to b "mb"

/-- One parsed request record, the `LogLine` TypedDict of
esgf_metrics/parse.py.  The date fields (`date`, `year_month`, `year`,
`month`) are initialised to `None` in `_parse_log_line` and only filled
later by `_extract_dates` from the raw line; no claim below depends on
them, so they are not modelled. -/
structure LogLineRec where
  log_line : PyStr
  ip_address : PyStr
  access_type : PyStr
  status_code : PyStr
  dataset_path : PyStr
  bytes : PyStr
  megabytes : ℚ
  dataset_id : PyStr
  file_id : PyStr
  project : String
  facets : Facets
  deriving DecidableEq, Repr

/-- Embedding of `LogParser._parse_log_line`: splits the line on whitespace,
subscripts the positional fields (raising `IndexError` on a short line),
unescapes the request path, derives megabytes (raising `ValueError` when the
byte field is neither hyphenated nor numeric), classifies the project by the
`/E3SM-Project` marker, and extracts the identifier pair and facets. -/
def parseAttrs (line : PyStr) (attrs : List PyStr) : Except PyErr LogLineRec :=
  match att attrs 6 with
  | .error e => .error e
  | .ok a6 =>
    match att attrs 0 with
    | .error e => .error e
    | .ok a0 =>
      match att attrs 11 with
      | .error e => .error e
      | .ok a11 =>
        match att attrs 8 with
        | .error e => .error e
        | .ok a8 =>
          match att attrs 9 with
          | .error e => .error e
          | .ok a9 =>
            let dataset_path := pyReplace ("%2F".toList) ("/".toList) a6
            match megabytesOfField a9 with
            | .error e => .error e
            | .ok mb =>
              let ids := extractIdsFromDatasetPath dataset_path
              .ok ⟨line, a0, a11, a8, dataset_path, a9, mb, ids.1, ids.2,
                if containsSub e3smProjectMarker dataset_path then "E3SM CMIP6" else "E3SM",
                extractFacetsFromDatasetId ids.1 noFacets⟩

/-- Embedding of `LogParser._parse_log_line` as the composition of the
whitespace split `attrs = line.split()` with the field extraction. -/
def parseLogLine (line : PyStr) : Except PyErr LogLineRec :=
  parseAttrs line (pyWords line)

/-- Embedding of `LogParser._keep_reqs_with_data`: drops every record whose
byte-count field is the literal hyphen placeholder. -/
def keepReqsWithData (recs : List LogLineRec) : List LogLineRec :=
  recs.filter (fun r => decide (r.bytes ≠ "-".toList))

/-- Embedding of the per-file loop of `LogParser._parse_log_requests`: the
retained lines are parsed one by one with no exception handler, so the
first per-line error aborts the whole run; on success the records pass
through `_keep_reqs_with_data`.  The subsequent `_extract_dates` step only
fills the date columns from the raw line and is not modelled. -/
def parseLogRequests (lines : List PyStr) : Except PyErr (List LogLineRec) :=
  match (lines.filter filterLineKeep).mapM parseLogLine with
  | .error e => .error e
  | .ok recs => .ok (keepReqsWithData recs)

theorem any_pyStrEqList_false (segs : List PyStr) (opts : List PyStr) :
    segs.any (fun s => pyStrEqList s opts) = false := by
  induction segs with
  | nil => rfl
  | cons s rest ih => simp [pyStrEqList, ih]

/-- Facet extraction in esgf_metrics never changes the record: the
membership test compares strings against a list and is identically false,
so each project group assigns `None` to its last facet, and starting from
the all-`None` initialisation the facet fields stay all `None`. -/
theorem extractFacets_noFacets (dataset_id : PyStr) :
    extractFacetsFromDatasetId dataset_id noFacets = noFacets := by
  simp [extractFacetsFromDatasetId, AVAILABLE_FACETS, innerLoopFinal,
    any_pyStrEqList_false, setFacet, noFacets]

/-- Dataset identifier of the scenario in the spec (section 8). -/
def scenarioDatasetId : PyStr :=
  "CMIP6.CMIP.E3SM-Project.E3SM-1-0.historical.r1i1p1f1.Amon.wap.gr.v20191220".toList

/-- Dot-separated segments of the scenario dataset identifier. -/
def scenarioSegs : List PyStr :=
  pySplit (".".toList) scenarioDatasetId

/-- Claim C3, evaluated on the code: the scenario dataset id contains the
declared activity value CMIP among its segments, yet
`_extract_facets_from_dataset_id` leaves every facet `None` (its membership
test compares a list against string segments and its assignment sits
outside the inner loop); the usage_plotter variant does extract CMIP, but
its tie-break scans declared options in catalog order, not segments, so on
a segment list containing both atmos and ocean it returns atmos while the
last matching segment is ocean. -/
theorem facet_extraction_evaluated :
    ("CMIP".toList ∈ activityOptions) ∧
    ("CMIP".toList ∈ scenarioSegs) ∧
    extractFacetsFromDatasetId scenarioDatasetId noFacets = noFacets ∧
    (extractFacetsFromDatasetId scenarioDatasetId noFacets).activity = none ∧
    upMatchFacet activityOptions scenarioSegs = some ("CMIP".toList) ∧
    upMatchFacet realmOptions ["atmos".toList, "ocean".toList] = some ("atmos".toList) ∧
    lastMatchingSegment realmOptions ["atmos".toList, "ocean".toList] = some ("ocean".toList) := by
  refine ⟨by decide, by decide, extractFacets_noFacets _, ?_, by decide, by decide, by decide⟩
  rw [extractFacets_noFacets]
  rfl

theorem att_error_iff {α : Type} (l : List α) (i : Nat) :
    att l i = .error .indexError ↔ l.length ≤ i := by
  unfold att
  rcases h : l.get? i with _ | a
  · simp [List.get?_eq_none.mp h]
  · have hlt : i < l.length := by
      rcases List.get?_eq_some.mp h with ⟨hl, -⟩
      exact hl
    constructor
    · intro hc; exact Except.noConfusion hc
    · intro hle; omega

theorem att_ok_iff {α : Type} (l : List α) (i : Nat) (a : α) :
    att l i = .ok a ↔ l.get? i = some a := by
  unfold att
  rcases h : l.get? i with _ | b <;> simp

/-- Every record produced by `_parse_log_line` has all facet fields `None`:
the facet-extraction step never changes the initial all-`None` fields. -/
theorem parseLogLine_ok_facets (line : PyStr) (r : LogLineRec)
    (h : parseLogLine line = .ok r) : r.facets = noFacets := by
  unfold parseLogLine parseAttrs at h
  rcases h6 : att (pyWords line) 6 with e | a6 <;> rw [h6] at h
  · exact Except.noConfusion h
  rcases h0 : att (pyWords line) 0 with e | a0 <;> rw [h0] at h
  · exact Except.noConfusion h
  rcases h11 : att (pyWords line) 11 with e | a11 <;> rw [h11] at h
  · exact Except.noConfusion h
  rcases h8 : att (pyWords line) 8 with e | a8 <;> rw [h8] at h
  · exact Except.noConfusion h
  rcases h9 : att (pyWords line) 9 with e | a9 <;> rw [h9] at h
  · exact Except.noConfusion h
  rcases hmb : megabytesOfField a9 with e | mb <;> simp only [hmb] at h
  · exact Except.noConfusion h
  cases h
  exact extractFacets_noFacets _

theorem mapM_error_of_mem {α β : Type} (f : α → Except PyErr β) (ls : List α)
    (h : ∃ l ∈ ls, ∃ e0, f l = .error e0) : ∃ e, ls.mapM f = .error e := by
  induction ls with
  | nil => simp at h
  | cons a rest ih =>
    rcases h with ⟨l, hl, e0, he⟩
    rcases hf : f a with ea | b
    · refine ⟨ea, ?_⟩
      rw [List.mapM_cons, hf]
      rfl
    · have hlr : l ∈ rest := by
        rcases List.mem_cons.mp hl with rfl | hr
        · rw [hf] at he; exact Except.noConfusion he
        · exact hr
      rcases ih ⟨l, hlr, e0, he⟩ with ⟨e, hrest⟩
      refine ⟨e, ?_⟩
      rw [List.mapM_cons, hf]
      show (rest.mapM f >>= fun xs => pure (b :: xs)) = .error e
      rw [hrest]
      rfl

theorem mapM_ok_of_all {α β : Type} (f : α → Except PyErr β) (ls : List α)
    (h : ∀ l ∈ ls, ∃ r, f l = .ok r) :
    ∃ rs, ls.mapM f = .ok rs ∧ rs.length = ls.length := by
  induction ls with
  | nil => exact ⟨[], by rw [List.mapM_nil]; rfl, rfl⟩
  | cons a rest ih =>
    rcases h a (List.mem_cons_self a rest) with ⟨b, hb⟩
    rcases ih (fun l hl => h l (List.mem_cons_of_mem a hl)) with ⟨rs, hrs, hlen⟩
    refine ⟨b :: rs, ?_, by simp [hlen]⟩
    rw [List.mapM_cons, hb]
    show (rest.mapM f >>= fun xs => pure (b :: xs)) = .ok (b :: rs)
    rw [hrs]
    rfl

theorem att_error_eq {α : Type} (l : List α) (i : Nat) (e : PyErr)
    (h : att l i = .error e) : e = .indexError ∧ l.length ≤ i := by
  unfold att at h
  rcases hg : l.get? i with _ | a <;> rw [hg] at h
  · cases h
    exact ⟨rfl, List.get?_eq_none.mp hg⟩
  · exact Except.noConfusion h

theorem parseLogLine_short (line : PyStr) (h : (pyWords line).length < 12) :
    parseLogLine line = .error .indexError := by
  unfold parseLogLine parseAttrs
  rcases h6 : att (pyWords line) 6 with e6 | a6
  · rcases att_error_eq _ _ _ h6 with ⟨he, -⟩
    rw [he]
  · have h6len : 6 < (pyWords line).length := by
      rw [att_ok_iff] at h6
      rcases List.get?_eq_some.mp h6 with ⟨hl, -⟩
      exact hl
    have h0 : ∃ a, att (pyWords line) 0 = .ok a := by
      rcases hg : (pyWords line).get? 0 with _ | a
      · have := List.get?_eq_none.mp hg
        omega
      · exact ⟨a, (att_ok_iff _ _ _).mpr hg⟩
    rcases h0 with ⟨a0, h0⟩
    have h11 : att (pyWords line) 11 = .error .indexError :=
      (att_error_iff _ _).mpr (by omega)
    rw [h0, h11]

/-- Injection of `Except` into `Sum`, used to derive decidable equality. -/
def exceptToSum {ε α : Type} : Except ε α → Sum ε α
  | .error e => .inl e
  | .ok a => .inr a

instance {ε α : Type} [DecidableEq ε] [DecidableEq α] : DecidableEq (Except ε α) :=
  fun a b =>
    decidable_of_iff (exceptToSum a = exceptToSum b)
      (by cases a <;> cases b <;> simp [exceptToSum])

theorem infix_singleton_iff (c : Char) (s : PyStr) : [c] <:+: s ↔ c ∈ s := by
  constructor
  · rintro ⟨l, r, rfl⟩
    simp
  · intro h
    rcases List.append_of_mem h with ⟨l, r, rfl⟩
    exact ⟨l, r, by simp⟩

theorem pySplit_no_anchor (p : PyStr) (h : ¬ (userPubAnchor <:+: p)) :
    pySplit userPubAnchor p = [p] := by
  have hchar : userPubAnchor = '/' :: "user_pub_work/".toList := by decide
  rw [hchar] at h ⊢
  exact pySplit_no_occurrence _ _ p h

/-- Concrete request path with no ingest-root anchor, typical of a
redirected or not-found request. -/
def noAnchorPath : PyStr :=
  "/esg-search/wget".toList

/-- Counterexample for claim C5: on a retained line whose path lacks the
ingest-root anchor, the parser does not produce an empty dataset
identifier; splitting on the absent anchor returns the whole path, so the
dataset identifier becomes the dot-join of all but the last slash segment
of the full path, here .esg-search. -/
theorem missing_anchor_counterexample :
    containsSub userPubAnchor noAnchorPath = false ∧
    (extractIdsFromDatasetPath noAnchorPath).1 = ".esg-search".toList ∧
    ".esg-search".toList ≠ ([] : PyStr) := by
  exact ⟨by decide, by decide, by decide⟩

/-- Claim C5, amended: for every path that does not contain the ingest-root
anchor, identifier extraction keeps the record (no error path exists in
this step) and yields the dot-join of all but the last slash segment of
the whole path as the dataset identifier (empty only for paths with at
most one non-final segment) with the last segment as file identifier;
every record kept by the parser has all facet values `None`. -/
theorem missing_anchor_amended (p : PyStr) (h : ¬ (userPubAnchor <:+: p)) :
    (extractIdsFromDatasetPath p).1 =
      List.intercalate (".".toList) ((pySplit ("/".toList) p).dropLast) ∧
    (extractIdsFromDatasetPath p).2 = (pySplit ("/".toList) p).getLastD [] ∧
    (∀ line r, parseLogLine line = .ok r → r.facets = noFacets) := by
  have hs := pySplit_no_anchor p h
  refine ⟨?_, ?_, fun line r hr => parseLogLine_ok_facets line r hr⟩
  · unfold extractIdsFromDatasetPath
    rw [hs]
    simp [List.getLastD]
  · unfold extractIdsFromDatasetPath
    rw [hs]
    simp [List.getLastD]

/-- Witness for the amended C5: the anchor-free path evaluates to the
predicted non-empty dataset identifier. -/
theorem missing_anchor_amended_witness :
    (extractIdsFromDatasetPath noAnchorPath).1 = ".esg-search".toList := by
  have h := (missing_anchor_amended noAnchorPath (by
    intro hc
    exact absurd ((containsSub_iff _ _).mpr hc) (by decide))).1
  rw [h]
  decide

theorem bytes_to_mb_digits (s : PyStr) (hne : s ≠ [])
    (hdig : s.all (fun c => c.isDigit) = true) :
    bytes_to s "mb" = .ok ((digitsToNat s : ℚ) / 1024 ^ 2) := by
  unfold bytes_to
  have h1 : map_sizes "mb" = .ok 2 := rfl
  have h2 : pyFloat s = .ok ((digitsToNat s : ℚ)) := by
    unfold pyFloat
    rw [if_pos ⟨hne, hdig⟩]
  rw [h1, h2]
  rfl

/-- Concrete retained line whose byte-count field is the placeholder. -/
def hyphenLine : PyStr :=
  "5.6.7.8 - - [15/Jul/2019:03:18:49 -0700] qGET /user_pub_work/E3SM/1_0/f.nc Hq 206 - r u v".toList

/-- Counterexample for claim C6: a retained line with the placeholder byte
field parses into a record with zero megabytes, but the record is then
dropped from the parsed output by `_keep_reqs_with_data`, so it is not
kept as the claim states. -/
theorem byte_placeholder_counterexample :
    filterLineKeep hyphenLine = true ∧
    (parseLogLine hyphenLine).map (fun r => (r.bytes, r.megabytes)) =
      .ok ("-".toList, 0) ∧
    parseLogRequests [hyphenLine] = .ok [] := by
  exact ⟨by decide, by decide, by decide⟩

/-- Claim C6, amended: derived megabytes equal the byte count divided by
1024 squared for a numeric (all-digit) field and zero for the hyphen
placeholder, but a placeholder record survives only line parsing: the
data filter then removes it, so no record of the parsed output has a
placeholder byte field. -/
theorem byte_conversion_amended :
    (∀ s : PyStr, s ≠ [] → s.all (fun c => c.isDigit) = true →
      megabytesOfField s = .ok ((digitsToNat s : ℚ) / 1024 ^ 2)) ∧
    megabytesOfField ("-".toList) = .ok 0 ∧
    (∀ lines recs, parseLogRequests lines = .ok recs →
      ∀ r ∈ recs, r.bytes ≠ "-".toList) := by
  refine ⟨?_, by decide, ?_⟩
  · intro s hne hdig
    have hnc : containsSub ("-".toList) s = false := by
      rcases hc : containsSub ("-".toList) s with _ | _
      · rfl
      · exfalso
        have hinf := (containsSub_iff _ _).mp hc
        have hmem : '-' ∈ s := (infix_singleton_iff _ _).mp hinf
        have hdm := List.all_eq_true.mp hdig _ hmem
        exact absurd hdm (by decide)
    unfold megabytesOfField
    rw [hnc]
    simp only [Bool.false_eq_true, if_false]
    exact bytes_to_mb_digits s hne hdig
  · intro lines recs h r hr
    unfold parseLogRequests at h
    rcases hm : (lines.filter filterLineKeep).mapM parseLogLine with e | rs <;>
      rw [hm] at h
    · exact Except.noConfusion h
    · cases h
      rcases List.mem_filter.mp hr with ⟨-, hp⟩
      exact of_decide_eq_true hp

/-- Witness for the amended C6: one mebibyte of transferred bytes converts
to exactly one megabyte, and the placeholder converts to zero. -/
theorem byte_conversion_amended_witness :
    megabytesOfField ("1048576".toList) = .ok 1 ∧
    megabytesOfField ("-".toList) = .ok 0 := by
  constructor
  · have h := byte_conversion_amended.1 ("1048576".toList) (by decide) (by decide)
    have hd : digitsToNat ("1048576".toList) = 1048576 := by decide
    rw [h, hd]
    norm_num
  · exact byte_conversion_amended.2.1

/-- Well-formed retained access-log line with 13 whitespace fields. -/
def goodLine : PyStr :=
  "1.2.3.4 - - [15/Jul/2019:03:18:49 -0700] qGET /user_pub_work/E3SM/1_0/f.nc Hq 200 1048576 r u v".toList

/-- Retained line with only 3 whitespace fields. -/
def shortLine : PyStr :=
  "E3SM 200 x".toList

/-- Counterexample for claim C8: a retained line with fewer fields than the
highest required positional index is not skipped; its field-index error
propagates out of the per-line loop, so a run over a well-formed line plus
a malformed line aborts with an `IndexError` and produces no records at
all, in either order. -/
theorem malformed_line_counterexample :
    filterLineKeep shortLine = true ∧
    (pyWords shortLine).length = 3 ∧
    (parseLogRequests [goodLine]).isOk = true ∧
    parseLogRequests [goodLine, shortLine] = .error .indexError ∧
    parseLogRequests [shortLine, goodLine] = .error .indexError := by
  exact ⟨by decide, by decide, by decide, by decide, by decide⟩

/-- Claim C8, amended: the per-line parser has no exception handler, so a
retained line with fewer than 12 whitespace fields makes the whole run
abort with an error and no records are produced from any line; when every
retained line parses, the run succeeds with one record per retained line
(before the placeholder data filter). -/
theorem malformed_line_aborts_run_amended (lines : List PyStr) :
    ((∃ l ∈ lines, filterLineKeep l = true ∧ (pyWords l).length < 12) →
      ∃ e, parseLogRequests lines = .error e) ∧
    ((∀ l ∈ lines, filterLineKeep l = true → ∃ r, parseLogLine l = .ok r) →
      ∃ recs, parseLogRequests lines = .ok (keepReqsWithData recs) ∧
        recs.length = (lines.filter filterLineKeep).length) := by
  constructor
  · rintro ⟨l, hl, hk, hshort⟩
    have hmem : l ∈ lines.filter filterLineKeep := List.mem_filter.mpr ⟨hl, hk⟩
    rcases mapM_error_of_mem parseLogLine _
        ⟨l, hmem, .indexError, parseLogLine_short l hshort⟩ with ⟨e, he⟩
    refine ⟨e, ?_⟩
    unfold parseLogRequests
    rw [he]
  · intro hall
    have hok : ∀ l ∈ lines.filter filterLineKeep, ∃ r, parseLogLine l = .ok r := by
      intro l hl
      rcases List.mem_filter.mp hl with ⟨h1, h2⟩
      exact hall l h1 h2
    rcases mapM_ok_of_all parseLogLine _ hok with ⟨rs, hrs, hlen⟩
    refine ⟨rs, ?_, hlen⟩
    unfold parseLogRequests
    rw [hrs]

/-- Witness for the amended C8: on the concrete pair of lines the whole run
yields an error rather than skipping the malformed line. -/
theorem malformed_line_aborts_run_amended_witness :
    (parseLogRequests [goodLine, shortLine]).isOk = false := by
  rcases (malformed_line_aborts_run_amended [goodLine, shortLine]).1
      ⟨shortLine, by decide, by decide, by decide⟩ with ⟨e, he⟩
  rw [he]
  rfl

/-- Filename token required by `_get_abs_paths` (`"access_log-" in filename`). -/
def accessLogToken : PyStr :=
  "access_log-".toList

/-- Match of the node regex `(aims3|esgf-data\d{1})` at the start of a
string: the alternatives are tried in order, and the esgf-data branch
requires one following digit. -/
def extractNodeAt (s : PyStr) : Option PyStr :=
  if ("aims3".toList).isPrefixOf s then some ("aims3".toList)
  else if ("esgf-data".toList).isPrefixOf s then
    match s.get? ("esgf-data".toList).length with
    | some c => if c.isDigit then some ("esgf-data".toList ++ [c]) else none
    | none => none
  else none

/-- Search semantics of `df.path.str.extract(r"(aims3|esgf-data\d{1})")`:
the leftmost position with a match wins. -/
def extractNode (s : PyStr) : Option PyStr :=
  (s.tails.filterMap extractNodeAt).head?

/-- Match of the filename regex `(access_log-\d{8}$)` anywhere in the path:
equivalently, the last 19 characters are the token followed by 8 digits. -/
def filenameMatch (p : PyStr) : Bool :=
  decide (19 ≤ p.length)
    && accessLogToken.isPrefixOf (p.drop (p.length - 19))
    && (p.drop (p.length - 8)).all (fun c => c.isDigit)

/-- Trailing 8-digit date field of a log path, per `(\d{8}$)`. -/
def dateDigitsOf (p : PyStr) : PyStr :=
  p.drop (p.length - 8)

/-- Year component of a trailing YYYYMMDD date field. -/
def yearOf (d : PyStr) : Nat :=
  digitsToNat (d.take 4)

/-- Month component of a trailing YYYYMMDD date field. -/
def monthOf (d : PyStr) : Nat :=
  digitsToNat ((d.drop 4).take 2)

/-- Day component of a trailing YYYYMMDD date field. -/
def dayOf (d : PyStr) : Nat :=
  digitsToNat (d.drop 6)

/-- Coarse model of the validation performed by
`pd.to_datetime(df.date, format="%Y%m%d")`: month in 1..12 and day in
1..31 (month-specific day counts are not modelled; no claim depends on
them). -/
def validDate (d : PyStr) : Bool :=
  decide (1 ≤ monthOf d) && decide (monthOf d ≤ 12)
    && decide (1 ≤ dayOf d) && decide (dayOf d ≤ 31)

/-- One discovered log file, the row of `df_log_file` built by
`_parse_log_files` before the fiscal-date step. -/
structure LogFileDesc where
  path : PyStr
  node : PyStr
  year : Nat
  month : Nat
  deriving DecidableEq, Repr

/-- Row of the log-file frame for one path whose node token was validated. -/
def descOf (p : PyStr) : LogFileDesc :=
  ⟨p, (extractNode p).getD [], yearOf (dateDigitsOf p), monthOf (dateDigitsOf p)⟩

/-- Columns of the log-file frame at the point where `_parse_log_files`
calls `_add_fiscal_date_cols`. -/
def logFileCols : List String :=
  ["path", "node", "filename", "date", "year_month", "year", "month"]

/-- Column-level embedding of `_add_fiscal_date_cols`: the method reads
`row.calendar_year_month` and `row.calendar_month` on every row, so on a
non-empty frame it raises `AttributeError` unless both columns exist, and
otherwise appends the three fiscal columns it creates. -/
def addFiscalDateCols (cols : List String) : Except PyErr (List String) :=
  if cols.contains "calendar_year_month" && cols.contains "calendar_month" then
    .ok (cols ++ ["fiscal_year_quarter", "fiscal_year", "fiscal_month"])
  else .error .attributeError

/-- Embedding of `_keep_unparsed_logs`: the set difference
`set(paths) - set(parsed_log_paths)` as a deduplicated filtered list. -/
def keepUnparsedLogs (paths parsedPaths : List PyStr) : List PyStr :=
  paths.dedup.filter (fun p => !decide (p ∈ parsedPaths))

/-- Boolean lexicographic order on character lists, the order Python
`sorted` uses on path strings. -/
def strLeb : PyStr → PyStr → Bool
  | [], _ => true
  | _ :: _, [] => false
  | a :: as, b :: bs => if a = b then strLeb as bs else decide (a < b)

/-- Insertion into a sorted list of paths. -/
def insertSorted (x : PyStr) : List PyStr → List PyStr
  | [] => [x]
  | y :: ys => if strLeb x y then x :: y :: ys else y :: insertSorted x ys

/-- Insertion sort on paths, modelling `sorted(paths)`. -/
def sortPaths : List PyStr → List PyStr
  | [] => []
  | x :: xs => insertSorted x (sortPaths xs)

/-- Embedding of `_get_abs_paths` with `debug_mode=False`: the directory
walk (leaf directories only) is abstracted as the input list of files it
yields; files whose name lacks the access-log token are dropped, an empty
collection raises `IndexError`, and the survivors are deduplicated against
the already-ingested paths and sorted. -/
def getAbsPaths (walkedFiles parsedPaths : List PyStr) : Except PyErr (List PyStr) :=
  if (walkedFiles.filter (fun f => containsSub accessLogToken f)).isEmpty then
    .error .indexError
  else
    .ok (sortPaths (keepUnparsedLogs
      (walkedFiles.filter (fun f => containsSub accessLogToken f)) parsedPaths))

/-- Embedding of `_parse_log_files`: empty candidate set after dedup is the
normal `None` return; a missing node token on any retained path raises the
validation `ValueError`; otherwise the filename pattern filters the rows,
the trailing dates are validated, and the fiscal-date step runs on the
resulting frame (whose columns are `logFileCols`). -/
def parseLogFiles (walkedFiles parsedPaths : List PyStr) :
    Except PyErr (Option (List LogFileDesc)) :=
  match getAbsPaths walkedFiles parsedPaths with
  | .error e => .error e
  | .ok paths =>
    if paths.isEmpty then .ok none
    else if paths.any (fun p => (extractNode p).isNone) then .error .valueError
    else if !((paths.filter filenameMatch).all (fun p => validDate (dateDigitsOf p))) then
      .error .valueError
    else
      match addFiscalDateCols logFileCols with
      | .error e => .error e
      | .ok _ => .ok (some ((paths.filter filenameMatch).map descOf))

/-- Discovered path with no recognizable node token. -/
def badNodePath : PyStr :=
  "/logs/other/access_log-20190715".toList

/-- Discovered path with the aims3 node token and a valid trailing date. -/
def goodNodePath : PyStr :=
  "/logs/aims3/access_log-20190715".toList

/-- Claim C7, evaluated on the code: a path without a node token makes
discovery raise the validation error with nothing produced, as claimed;
but on a path with a valid node token discovery still produces no
descriptor list, because `_add_fiscal_date_cols` reads the columns
`calendar_year_month` and `calendar_month`, which the log-file frame does
not have (it has `year_month` and `month`), so the run aborts with an
`AttributeError` instead of returning the full list. -/
theorem discovery_validation_evaluated :
    extractNode badNodePath = none ∧
    parseLogFiles [badNodePath] [] = .error .valueError ∧
    extractNode goodNodePath = some ("aims3".toList) ∧
    parseLogFiles [goodNodePath] [] = .error .attributeError ∧
    ("calendar_year_month" ∈ logFileCols) = False ∧
    ("calendar_month" ∈ logFileCols) = False := by
  refine ⟨by decide, by decide, by decide, by decide, by simp [logFileCols], by simp [logFileCols]⟩

theorem mem_keepUnparsedLogs (paths parsedPaths : List PyStr) (p : PyStr) :
    p ∈ keepUnparsedLogs paths parsedPaths ↔ p ∈ paths ∧ p ∉ parsedPaths := by
  unfold keepUnparsedLogs
  rw [List.mem_filter, List.mem_dedup]
  constructor
  · rintro ⟨h1, h2⟩
    refine ⟨h1, ?_⟩
    intro hc
    simp [hc] at h2
  · rintro ⟨h1, h2⟩
    exact ⟨h1, by simp [h2]⟩

theorem keepUnparsedLogs_eq_nil (paths parsedPaths : List PyStr)
    (h : ∀ p ∈ paths, p ∈ parsedPaths) :
    keepUnparsedLogs paths parsedPaths = [] := by
  unfold keepUnparsedLogs
  rw [List.filter_eq_nil_iff]
  intro p hp
  simp [h p (List.mem_dedup.mp hp)]

/-- Claim C9: deduplication is a set difference against the already-ingested
paths, and when every discovered access-log file is already ingested the
discovery stage terminates normally with the empty `None` result and no
exception. -/
theorem discovery_dedup_set_difference :
    (∀ paths parsedPaths p,
      p ∈ keepUnparsedLogs paths parsedPaths ↔ p ∈ paths ∧ p ∉ parsedPaths) ∧
    (∀ walkedFiles parsedPaths,
      walkedFiles.filter (fun f => containsSub accessLogToken f) ≠ [] →
      (∀ p ∈ walkedFiles.filter (fun f => containsSub accessLogToken f),
        p ∈ parsedPaths) →
      parseLogFiles walkedFiles parsedPaths = .ok none) := by
  constructor
  · exact mem_keepUnparsedLogs
  · intro walkedFiles parsedPaths hne hall
    have hk : keepUnparsedLogs
        (walkedFiles.filter (fun f => containsSub accessLogToken f)) parsedPaths = [] :=
      keepUnparsedLogs_eq_nil _ _ hall
    have hie : (walkedFiles.filter (fun f => containsSub accessLogToken f)).isEmpty = false := by
      rcases hx : walkedFiles.filter (fun f => containsSub accessLogToken f) with _ | ⟨a, l⟩
      · exact absurd hx hne
      · rfl
    have hga : getAbsPaths walkedFiles parsedPaths = .ok [] := by
      unfold getAbsPaths
      rw [hie, hk]
      rfl
    unfold parseLogFiles
    rw [hga]
    rfl

/-- Witness for C9: re-running discovery over a root whose single log file
is already recorded as ingested returns the empty result without error. -/
theorem discovery_dedup_set_difference_witness :
    parseLogFiles [goodNodePath] [goodNodePath] = .ok none ∧
    (goodNodePath ∈ keepUnparsedLogs [goodNodePath] [] ↔
      goodNodePath ∈ [goodNodePath] ∧ goodNodePath ∉ ([] : List PyStr)) := by
  constructor
  · exact discovery_dedup_set_difference.2 [goodNodePath] [goodNodePath]
      (by decide) (by decide)
  · exact discovery_dedup_set_difference.1 [goodNodePath] [] goodNodePath

/-- One row of the monthly metrics frame produced by `_get_monthly_metrics`:
grouping key columns (project, facet value after `fillna("N/A")`, calendar
year and month) and the three per-month totals.  The fiscal columns are
derived from the calendar columns by `_add_fiscal_date_cols`. -/
structure MetricRow where
  project : String
  facet : String
  calendar_year : Nat
  calendar_month : Nat
  total_requests : Nat
  total_get_requests : Nat
  total_gb : ℚ
  deriving DecidableEq, Repr

/-- Fiscal-year column of a monthly metrics row. -/
def rowFiscalYear (r : MetricRow) : Nat :=
  fiscalYearQJun r.calendar_year r.calendar_month

/-- Grouping key of `_get_fiscal_monthly_cumsums`: `["project",
"fiscal_year"]`, extended with the facet column when a facet is
requested. -/
def gbKey (useFacet : Bool) (r : MetricRow) : String × Nat × Option String :=
  (r.project, rowFiscalYear r, if useFacet then some r.facet else none)

/-- Semantics of `df.groupby(gb_cols)[col].cumsum()`: rows keep their frame
order, and each row receives the sum of the column over the rows up to and
including itself that share its key; `prev` carries the rows already
consumed. -/
def groupCumsumAux {K : Type} [DecidableEq K] (key : MetricRow → K)
    (col : MetricRow → ℚ) (prev : List MetricRow) : List MetricRow → List ℚ
  | [] => []
  | r :: rs =>
    (((prev ++ [r]).filter (fun x => decide (key x = key r))).map col).sum ::
      groupCumsumAux key col (prev ++ [r]) rs

/-- Cumulative column added by `_get_fiscal_monthly_cumsums` for one input
column, as a list aligned with the input rows. -/
def groupCumsum {K : Type} [DecidableEq K] (key : MetricRow → K)
    (col : MetricRow → ℚ) (rows : List MetricRow) : List ℚ :=
  groupCumsumAux key col [] rows

/-- Cumulative values of the rows of one partition, in row order: the
cumulative column restricted to the rows whose key is `k`. -/
def partitionCumsums {K : Type} [DecidableEq K] (key : MetricRow → K)
    (col : MetricRow → ℚ) (rows : List MetricRow) (k : K) : List ℚ :=
  ((rows.zip (groupCumsum key col rows)).filter
    (fun pr => decide (key pr.1 = k))).map (fun pr => pr.2)

/-- Running sums of a list: element i is the sum of the first i + 1
elements. -/
def runningSums : List ℚ → List ℚ
  | [] => []
  | x :: xs => x :: (runningSums xs).map (fun q => x + q)

theorem runningSums_last_aux (xs : List ℚ) :
    ∀ c : ℚ, ((runningSums xs).map (fun q => c + q)).getLastD c = c + xs.sum := by
  induction xs with
  | nil => intro c; simp [runningSums]
  | cons x xs ih =>
    intro c
    show ((x :: (runningSums xs).map (fun q => x + q)).map (fun q => c + q)).getLastD c
        = c + (x :: xs).sum
    rw [List.map_cons, List.map_map, List.getLastD_cons]
    have hcomp : ((fun q => c + q) ∘ (fun q => x + q)) = (fun q => (c + x) + q) := by
      funext q
      simp [Function.comp]
      ring
    rw [hcomp, ih (c + x)]
    simp
    ring

theorem runningSums_last (xs : List ℚ) : (runningSums xs).getLastD 0 = xs.sum := by
  have h := runningSums_last_aux xs 0
  have hid : (runningSums xs).map (fun q => (0 : ℚ) + q) = runningSums xs := by
    simp
  rw [hid] at h
  simpa using h

theorem runningSums_nonneg (xs : List ℚ) (h : ∀ x ∈ xs, 0 ≤ x) :
    ∀ q ∈ runningSums xs, 0 ≤ q := by
  induction xs with
  | nil => intro q hq; simp [runningSums] at hq
  | cons x xs ih =>
    intro q hq
    rcases List.mem_cons.mp hq with rfl | hq2
    · exact h q (List.mem_cons_self _ _)
    · rcases List.mem_map.mp hq2 with ⟨q0, hq0, rfl⟩
      have h1 := h x (List.mem_cons_self _ _)
      have h2 := ih (fun y hy => h y (List.mem_cons_of_mem _ hy)) q0 hq0
      linarith

theorem runningSums_chain (xs : List ℚ) (h : ∀ x ∈ xs, 0 ≤ x) :
    List.Chain' (· ≤ ·) (runningSums xs) := by
  induction xs with
  | nil => simp [runningSums]
  | cons x xs ih =>
    show List.Chain' (· ≤ ·) (x :: (runningSums xs).map (fun q => x + q))
    have hchain : List.Chain' (· ≤ ·) ((runningSums xs).map (fun q => x + q)) := by
      rw [List.chain'_map]
      exact (ih (fun y hy => h y (List.mem_cons_of_mem _ hy))).imp
        (fun a b hab => by linarith)
    rcases hr : runningSums xs with _ | ⟨y, ys⟩
    · simp [hr] at hchain ⊢
    · rw [hr] at hchain
      rw [List.map_cons] at hchain ⊢
      refine List.chain'_cons.mpr ⟨?_, hchain⟩
      have hy : 0 ≤ y := runningSums_nonneg xs
        (fun z hz => h z (List.mem_cons_of_mem _ hz)) y (by rw [hr]; simp)
      linarith

theorem groupCumsumAux_partition {K : Type} [DecidableEq K] (key : MetricRow → K)
    (col : MetricRow → ℚ) (k : K) :
    ∀ (rows prev : List MetricRow),
    ((rows.zip (groupCumsumAux key col prev rows)).filter
      (fun pr => decide (key pr.1 = k))).map (fun pr => pr.2) =
    (runningSums ((rows.filter (fun r => decide (key r = k))).map col)).map
      (fun q => ((prev.filter (fun x => decide (key x = k))).map col).sum + q) := by
  intro rows
  induction rows with
  | nil => intro prev; simp [groupCumsumAux, runningSums]
  | cons r rs ih =>
    intro prev
    have hzip : (r :: rs).zip (groupCumsumAux key col prev (r :: rs)) =
        (r, (((prev ++ [r]).filter (fun x => decide (key x = key r))).map col).sum) ::
          rs.zip (groupCumsumAux key col (prev ++ [r]) rs) := rfl
    rw [hzip]
    by_cases hk : key r = k
    · have hsum : (((prev ++ [r]).filter (fun x => decide (key x = k))).map col).sum =
          ((prev.filter (fun x => decide (key x = k))).map col).sum + col r := by
        rw [List.filter_append]
        have h1 : [r].filter (fun x => decide (key x = k)) = [r] := by simp [hk]
        rw [h1, List.map_append, List.sum_append]
        simp
      have hfr : (((prev ++ [r]).filter (fun x => decide (key x = key r))).map col).sum =
          ((prev.filter (fun x => decide (key x = k))).map col).sum + col r := by
        rw [hk]
        exact hsum
      rw [List.filter_cons_of_pos (by simpa using hk), List.map_cons]
      rw [List.filter_cons_of_pos (by simpa using hk), List.map_cons]
      have hrun : runningSums (col r :: (rs.filter (fun x => decide (key x = k))).map col) =
          col r :: (runningSums ((rs.filter (fun x => decide (key x = k))).map col)).map
            (fun q => col r + q) := rfl
      rw [hrun, List.map_cons, List.map_map]
      refine List.cons_eq_cons.mpr ⟨hfr, ?_⟩
      rw [ih (prev ++ [r]), hsum]
      apply List.map_congr_left
      intro q hq
      simp [Function.comp]
      ring
    · have hpr : (fun pr : MetricRow × ℚ => decide (key pr.1 = k))
          (r, (((prev ++ [r]).filter (fun x => decide (key x = key r))).map col).sum) = false := by
        simpa using hk
      rw [List.filter_cons_of_neg (by simpa using hk)]
      rw [List.filter_cons_of_neg (by simpa using hk)]
      rw [ih (prev ++ [r])]
      have hbase : (prev ++ [r]).filter (fun x => decide (key x = k)) =
          prev.filter (fun x => decide (key x = k)) := by
        rw [List.filter_append]
        have h1 : [r].filter (fun x => decide (key x = k)) = [] := by simp [hk]
        rw [h1, List.append_nil]
      rw [hbase]

/-- Claim C2: for every (project, fiscal-year[, facet]) partition, the
cumulative column restricted to the partition (rows in frame order, which
is fiscal-month ascending within a partition) is the running sum of the
per-month totals; it is monotonically non-decreasing when the totals are
non-negative, and its final value is the sum of the totals over the
partition.  The partition key contains the fiscal year, so calendar months
6 and 7 of the same calendar year fall in different partitions (the
running total resets in July) while December and the following January
share a partition (no reset in January). -/
theorem cumulative_sums_ok (useFacet : Bool) (col : MetricRow → ℚ)
    (rows : List MetricRow) (k : String × Nat × Option String) :
    (partitionCumsums (gbKey useFacet) col rows k =
      runningSums ((rows.filter (fun r => decide (gbKey useFacet r = k))).map col)) ∧
    ((∀ r ∈ rows, 0 ≤ col r) →
      List.Chain' (· ≤ ·) (partitionCumsums (gbKey useFacet) col rows k)) ∧
    ((partitionCumsums (gbKey useFacet) col rows k).getLastD 0 =
      ((rows.filter (fun r => decide (gbKey useFacet r = k))).map col).sum) ∧
    (∀ r6 r7 : MetricRow, r6.project = r7.project → r6.facet = r7.facet →
      r6.calendar_year = r7.calendar_year →
      r6.calendar_month = 6 → r7.calendar_month = 7 →
      gbKey useFacet r6 ≠ gbKey useFacet r7) ∧
    (∀ r12 r1 : MetricRow, r12.project = r1.project → r12.facet = r1.facet →
      r12.calendar_year + 1 = r1.calendar_year →
      r12.calendar_month = 12 → r1.calendar_month = 1 →
      gbKey useFacet r12 = gbKey useFacet r1) := by
  have hcore : partitionCumsums (gbKey useFacet) col rows k =
      runningSums ((rows.filter (fun r => decide (gbKey useFacet r = k))).map col) := by
    unfold partitionCumsums groupCumsum
    rw [groupCumsumAux_partition (gbKey useFacet) col k rows []]
    have hbase : (([] : List MetricRow).filter
        (fun x => decide (gbKey useFacet x = k))).map col = [] := rfl
    rw [hbase]
    simp
  refine ⟨hcore, ?_, ?_, ?_, ?_⟩
  · intro hnn
    rw [hcore]
    apply runningSums_chain
    intro x hx
    rcases List.mem_map.mp hx with ⟨r, hr, rfl⟩
    exact hnn r (List.mem_filter.mp hr).1
  · rw [hcore]
    exact runningSums_last _
  · intro r6 r7 hp hf hy h6 h7
    unfold gbKey rowFiscalYear fiscalYearQJun
    rw [h6, h7]
    intro hc
    have := (Prod.ext_iff.mp hc).2
    have h2 := (Prod.ext_iff.mp this).1
    simp at h2
    omega
  · intro r12 r1 hp hf hy h12 h1
    unfold gbKey rowFiscalYear fiscalYearQJun
    rw [h12, h1, hp, hf, hy]
    simp

/-- Monthly rows spanning the FY2020 boundary: July and August 2019 and
January 2020 belong to fiscal year 2020, while July 2020 starts FY2021. -/
def sampleRows : List MetricRow :=
  [⟨"E3SM", "N/A", 2019, 7, 3, 3, 2⟩,
   ⟨"E3SM", "N/A", 2019, 8, 2, 2, 1⟩,
   ⟨"E3SM", "N/A", 2020, 1, 5, 5, 4⟩,
   ⟨"E3SM", "N/A", 2020, 7, 1, 1, 1⟩]

/-- Witness for C2: on concrete rows the FY2020 partition accumulates 3, 5,
10 for total requests, is a chain under ≤, ends at the partition sum 10,
and the key function separates June from July of the same year. -/
theorem cumulative_sums_ok_witness :
    List.Chain' (· ≤ ·) (partitionCumsums (gbKey false)
      (fun r => (r.total_requests : ℚ)) sampleRows ("E3SM", 2020, none)) ∧
    (partitionCumsums (gbKey false) (fun r => (r.total_requests : ℚ))
      sampleRows ("E3SM", 2020, none)).getLastD 0 = 10 ∧
    gbKey false ⟨"E3SM", "N/A", 2019, 6, 0, 0, 0⟩ ≠
      gbKey false ⟨"E3SM", "N/A", 2019, 7, 0, 0, 0⟩ ∧
    partitionCumsums (gbKey false) (fun r => (r.total_requests : ℚ))
      sampleRows ("E3SM", 2020, none) = [3, 5, 10] := by
  have hfilter : sampleRows.filter
      (fun r => decide (gbKey false r = ("E3SM", 2020, none))) =
      [⟨"E3SM", "N/A", 2019, 7, 3, 3, 2⟩,
       ⟨"E3SM", "N/A", 2019, 8, 2, 2, 1⟩,
       ⟨"E3SM", "N/A", 2020, 1, 5, 5, 4⟩] := rfl
  refine ⟨?_, ?_, ?_, ?_⟩
  · exact (cumulative_sums_ok false (fun r => (r.total_requests : ℚ)) sampleRows ("E3SM", 2020, none)).2.1 (by decide)
  · rw [(cumulative_sums_ok false (fun r => (r.total_requests : ℚ)) sampleRows ("E3SM", 2020, none)).2.2.1, hfilter]
    norm_num
  · exact (cumulative_sums_ok false (fun r => (r.total_requests : ℚ)) sampleRows ("E3SM", 2020, none)).2.2.2.1
      ⟨"E3SM", "N/A", 2019, 6, 0, 0, 0⟩ ⟨"E3SM", "N/A", 2019, 7, 0, 0, 0⟩
      rfl rfl rfl rfl rfl
  · rw [(cumulative_sums_ok false (fun r => (r.total_requests : ℚ)) sampleRows ("E3SM", 2020, none)).1, hfilter]
    norm_num [runningSums]

/-- Aggregation key columns of `_get_monthly_metrics`: project and the
calendar columns, with the facet column inserted at position 1 when a
facet is requested. -/
def aggCols (facet : Option String) : List String :=
  match facet with
  | none => ["project", "calendar_year_month", "calendar_year", "calendar_month"]
  | some f => ["project", f, "calendar_year_month", "calendar_year", "calendar_month"]

/-- Columns of the frame returned by `_get_monthly_metrics`: the key
columns followed by the three totals in merge order. -/
def monthlyMetricCols (facet : Option String) : List String :=
  aggCols facet ++ ["total_requests", "total_get_requests", "total_gb"]

/-- Columns appended by `_get_fiscal_monthly_cumsums`. -/
def addCumsumCols (cols : List String) : List String :=
  cols ++ ["cumulative_requests", "cumulative_get_requests", "cumulative_gb"]

/-- Column list requested by `_reorder_columns`, with the facet column
inserted at position 1 when a facet is requested. -/
def reorderRequestedCols (facet : Option String) : List String :=
  match facet with
  | none =>
    ["project", "fiscal_year_quarter", "fiscal_year", "fiscal_month",
     "fiscal_quarter", "year_month", "year", "month", "total_requests",
     "cumulative_requests", "total_get_requests", "cumulative_get_requests",
     "total_gb", "cumulative_gb"]
  | some f =>
    ["project", f, "fiscal_year_quarter", "fiscal_year", "fiscal_month",
     "fiscal_quarter", "year_month", "year", "month", "total_requests",
     "cumulative_requests", "total_get_requests", "cumulative_get_requests",
     "total_gb", "cumulative_gb"]

/-- Column selection `df[columns]`: pandas raises `KeyError` when any
requested column is absent from the frame, else returns the requested
order. -/
def selectCols (df requested : List String) : Except PyErr (List String) :=
  if requested.all (fun c => df.contains c) then .ok requested
  else .error .keyError

/-- Column-level embedding of `_get_fiscal_metrics`: fiscal date columns,
cumulative columns, then the reorder selection. -/
def getFiscalMetricsCols (facet : Option String) : Except PyErr (List String) :=
  match addFiscalDateCols (monthlyMetricCols facet) with
  | .error e => .error e
  | .ok cols => selectCols (addCumsumCols cols) (reorderRequestedCols facet)

/-- Claim C10, evaluated on the code: the reorder step does request the
claimed column order (facet second, `fiscal_quarter` included), but the
pipeline never produces the columns `fiscal_quarter`, `year_month`,
`year`, or `month` (the monthly frame names them `calendar_year_month`,
`calendar_year`, `calendar_month`, and no step computes
`fiscal_quarter`), so the selection raises `KeyError` instead of
returning the claimed table, both unfaceted and faceted. -/
theorem output_schema_evaluated :
    "fiscal_quarter" ∈ reorderRequestedCols none ∧
    (reorderRequestedCols (some "activity")).get? 1 = some "activity" ∧
    addFiscalDateCols (monthlyMetricCols none) =
      .ok (monthlyMetricCols none ++
        ["fiscal_year_quarter", "fiscal_year", "fiscal_month"]) ∧
    "fiscal_quarter" ∉ addCumsumCols (monthlyMetricCols none ++
      ["fiscal_year_quarter", "fiscal_year", "fiscal_month"]) ∧
    "year_month" ∉ addCumsumCols (monthlyMetricCols none ++
      ["fiscal_year_quarter", "fiscal_year", "fiscal_month"]) ∧
    getFiscalMetricsCols none = .error .keyError ∧
    getFiscalMetricsCols (some "activity") = .error .keyError := by
  refine ⟨by decide, by decide, by decide, by decide, by decide, by decide, by decide⟩
